import Mathlib

/-!
# Verification of the Nextcloud WebDAV client (`nextcloud_api.py`)

Shallow embedding of the WebDAV client layer of the repository
`nextcloud-uploader`: URL construction (`NextcloudClient._build_url`),
status-code classification (`NextcloudClient._handle_response` and the four
operations `upload_file`, `create_directory`, `list_directory`, `delete`),
and the PROPFIND multi-status listing logic.

Strings are modelled as lists of natural numbers (the UTF-8 bytes of the
Python `str`); Python's `urllib.parse.quote` / `unquote` operate on exactly
those bytes, so the byte level is the faithful level for percent-encoding.
Raised Python exceptions are modelled with `Except`: `Err.httpError s` is the
`requests.exceptions.HTTPError` produced by `response.raise_for_status()` at
status `s`, `Err.parseError` is `xml.etree.ElementTree.ParseError`.
-/

set_option autoImplicit false

namespace NextcloudAPI

/-- The UTF-8 bytes of an ASCII string literal (all literals used in this
development are ASCII, where code points and UTF-8 bytes coincide). -/
def bytes (s : String) : List Nat := s.data.map Char.toNat

/-- The byte of the path separator character. -/
def slash : Nat := 47

/-! ## Python string primitives used by the source -/

/-- Python `str.lstrip(c)` for a single character `c`: drop every leading
occurrence of `c`. -/
def lstrip (c : Nat) : List Nat → List Nat
  | [] => []
  | x :: xs => if x = c then lstrip c xs else x :: xs

/-- Python `str.rstrip(c)` for a single character `c`: drop every trailing
occurrence of `c`. -/
def rstrip (c : Nat) (s : List Nat) : List Nat :=
  (lstrip c s.reverse).reverse

/-- Python `str.strip(c)` for a single character `c`: drop leading and
trailing occurrences of `c`. -/
def stripBoth (c : Nat) (s : List Nat) : List Nat :=
  lstrip c (rstrip c s)

/-- Python `str.split(c)` for a single character `c`. The result is always
non-empty; consecutive separators produce empty segments (CPython
semantics, e.g. `""` splits to `[""]` and `"/a"` splits to `["", "a"]`). -/
def splitPy (sep : Nat) : List Nat → List (List Nat)
  | [] => [[]]
  | c :: rest =>
    let r := splitPy sep rest
    if c = sep then [] :: r
    else (c :: r.headD []) :: r.tail

/-- Python `'/'.join(xs)`: concatenate with a single separator between
consecutive pieces. -/
def joinSep (sep : Nat) : List (List Nat) → List Nat
  | [] => []
  | [s] => s
  | s :: t :: rest => s ++ sep :: joinSep sep (t :: rest)

/-! ## Percent-encoding (`urllib.parse.quote` / `unquote`)

`quote(part, safe='')` leaves the bytes of `ALWAYS_SAFE`
(ASCII letters, digits, `_`, `.`, `-`, `~`) unchanged and replaces every
other byte `b` with `%` followed by the two uppercase hex digits of `b`.
`unquote` replaces every `%` that is followed by two hex digits (either
case) with the corresponding byte and leaves everything else unchanged
(CPython never fails on undecodable input; a stray `%` stays literal). -/

/-- The bytes `urllib.parse.quote` never encodes when `safe=''`:
ASCII letters, digits, and `_ . - ~`. -/
def isSafeByte (b : Nat) : Bool :=
  (65 ≤ b && b ≤ 90) || (97 ≤ b && b ≤ 122) || (48 ≤ b && b ≤ 57) ||
    b == 95 || b == 46 || b == 45 || b == 126

/-- The byte of the uppercase hex digit of a value below 16 (CPython formats
percent-escapes with `%02X`). -/
def hexDigit (n : Nat) : Nat :=
  if n < 10 then 48 + n else 55 + n

/-- The value of a hex-digit byte (either case), `none` for non-hex bytes. -/
def hexVal (c : Nat) : Option Nat :=
  if 48 ≤ c ∧ c ≤ 57 then some (c - 48)
  else if 65 ≤ c ∧ c ≤ 70 then some (c - 55)
  else if 97 ≤ c ∧ c ≤ 102 then some (c - 87)
  else none

/-- Percent-encoding of one byte by `quote(part, safe='')`. -/
def quoteByte (b : Nat) : List Nat :=
  if isSafeByte b then [b] else [37, hexDigit (b / 16), hexDigit (b % 16)]

/-- Model of `urllib.parse.quote(s, safe='')` at the byte level. -/
def quote : List Nat → List Nat
  | [] => []
  | b :: rest => quoteByte b ++ quote rest

/-- Model of `urllib.parse.unquote(s)` at the byte level: `37` is `%`. -/
def unquote : List Nat → List Nat
  | [] => []
  | 37 :: h1 :: h2 :: rest2 =>
    match hexVal h1, hexVal h2 with
    | some a, some b => (16 * a + b) :: unquote rest2
    | _, _ => 37 :: unquote (h1 :: h2 :: rest2)
  | c :: rest => c :: unquote rest

/-! ## The client and URL construction -/

/-- State of `NextcloudClient` relevant to the claims. The constructor stores
`nextcloud_url.rstrip('/')` in `base_url`; the model takes that stripped
value directly. -/
structure Client where
  base_url : List Nat
  username : List Nat
  deriving DecidableEq

/-- Model of `self.dav_base_path`: the string `/remote.php/dav/files/` followed
by the username. -/
def davBasePath (c : Client) : List Nat :=
  bytes "/remote.php/dav/files/" ++ c.username

/-- Lines 63-64 of `_build_url`: prepend `'/'` when the path does not
already start with one (Python `startswith('/')` is false for `''`). -/
def ensureLeading (p : List Nat) : List Nat :=
  if p.head? = some slash then p else slash :: p

/-- Model of `NextcloudClient._build_url` (lines 63-70): ensure a leading slash,
strip leading/trailing slashes, split on `/`, percent-encode each segment
with `quote(part, safe='')`, join with `/`, and append to
`base_url + dav_base_path + '/'`. -/
def build_url (c : Client) (remote_path : List Nat) : List Nat :=
  c.base_url ++ davBasePath c ++ [slash] ++
    joinSep slash ((splitPy slash (stripBoth slash (ensureLeading remote_path))).map quote)

/-! ## Response classification -/

/-- Errors raised by the client: `httpError` is the
`requests.exceptions.HTTPError` from `raise_for_status`, `parseError` is
`xml.etree.ElementTree.ParseError`. -/
inductive Err where
  | httpError (status : Nat)
  | parseError
  deriving DecidableEq

/-- Model of `requests.Response.raise_for_status`: raises `HTTPError` exactly for
client-error (400-499) and server-error (500-599) status codes. -/
def raise_for_status (status : Nat) : Except Err Unit :=
  if 400 ≤ status ∧ status ≤ 599 then Except.error (Err.httpError status)
  else Except.ok ()

/-- Model of `NextcloudClient._handle_response` (lines 72-92): when the status is not
in `success_codes`, print a diagnostic and call `response.raise_for_status()`
(which only raises for 4xx/5xx). -/
def handle_response (status : Nat) (success_codes : List Nat) : Except Err Unit :=
  if status ∈ success_codes then Except.ok ()
  else raise_for_status status

/-- Model of `NextcloudClient.upload_file` response handling (lines 120-136): the
local-file existence check and the PUT itself precede this and are outside
the modelled fragment; given the response status, the method runs
`_handle_response(response, success_codes=(200, 201, 204))` and then
returns `True`. -/
def upload_file (status : Nat) : Except Err Bool :=
  match handle_response status [200, 201, 204] with
  | Except.error e => Except.error e
  | Except.ok _ => Except.ok true

/-- Lines 151-155 of `create_directory`: append `'/'` unless the path is
exactly `'/'` or already ends with `'/'`. -/
def mkcolPath (remote_path : List Nat) : List Nat :=
  if remote_path ≠ [slash] ∧ remote_path.getLast? ≠ some slash then
    remote_path ++ [slash]
  else remote_path

/-- Model of `NextcloudClient.create_directory` response handling (lines 160-173):
201 and 405 return `True`; otherwise `_handle_response(response,
success_codes=(201, 405))` runs and, when it does not raise, the function
falls off the end and returns Python `None` (modelled as `Option.none`). -/
def create_directory (status : Nat) : Except Err (Option Bool) :=
  if status = 201 then Except.ok (some true)
  else if status = 405 then Except.ok (some true)
  else
    match handle_response status [201, 405] with
    | Except.error e => Except.error e
    | Except.ok _ => Except.ok none

/-- Model of `NextcloudClient.delete` response handling (lines 292-301): 404 returns
`False`, then `_handle_response(response, success_codes=(204,))`, then
`True`. -/
def delete (status : Nat) : Except Err Bool :=
  if status = 404 then Except.ok false
  else
    match handle_response status [204] with
    | Except.error e => Except.error e
    | Except.ok _ => Except.ok true

/-! ## PROPFIND listing -/

/-- The `<d:resourcetype>` element of a parsed response entry:
`hasCollection` records whether a `<d:collection>` child is present. -/
structure ResourcetypeElem where
  hasCollection : Bool
  deriving DecidableEq

/-- The `<d:prop>` element of a parsed response entry. -/
structure PropElem where
  resourcetype : Option ResourcetypeElem
  deriving DecidableEq

/-- The `<d:propstat>` element of a parsed response entry. -/
structure PropstatElem where
  prop : Option PropElem
  deriving DecidableEq

/-- One `<d:response>` element of the multi-status document. `href` is
`none` when the `<d:href>` child is missing; `some none` when the element is
present but has no text (ElementTree gives `None`, on which `unquote`
raises and the entry is skipped); `some (some s)` carries the raw text. -/
structure RespElem where
  href : Option (Option (List Nat))
  propstat : Option PropstatElem
  deriving DecidableEq

/-- The outcome of `ET.fromstring` on the response body: either the parse
raises `ET.ParseError` or it yields the list of `<d:response>` elements. -/
inductive XmlBody where
  | malformed
  | wellFormed (responses : List RespElem)
  deriving DecidableEq

/-- One item of the list returned by `list_directory`:
`{'href': ..., 'name': ..., 'is_dir': ...}` with `href` already decoded. -/
structure Entry where
  href : List Nat
  name : List Nat
  is_dir : Bool
  deriving DecidableEq

/-- Lines 216-221 of `list_directory`: the expected self href,
`dav_base_path + '/' + remote_path.strip('/')`, or `dav_base_path` alone
when the stripped path is empty. -/
def baseHrefCheck (c : Client) (remote_path : List Nat) : List Nat :=
  let normalized := stripBoth slash remote_path
  if normalized ≠ [] then davBasePath c ++ [slash] ++ normalized
  else davBasePath c

/-- Python `s.split('/')[-1]`. -/
def lastSeg (s : List Nat) : List Nat :=
  (splitPy slash s).getLastD []

/-- Lines 224-257 of `list_directory`, for one `<d:response>` element:
skip it when `href` or `propstat` is missing or the href text is `None`
(the `unquote` call raises and is caught); otherwise decode the href, skip
the self entry, and build the item with
`name = href.rstrip('/').split('/')[-1]` and `is_dir` from the
resourcetype. -/
def processResp (baseCheck : List Nat) (r : RespElem) : Option Entry :=
  match r.href, r.propstat with
  | some (some rawHref), some ps =>
    let href := unquote rawHref
    if rstrip slash href = baseCheck then none
    else
      let name := lastSeg (rstrip slash href)
      let is_dir :=
        match ps.prop with
        | some p =>
          match p.resourcetype with
          | some rt => rt.hasCollection
          | none => false
        | none => false
      some { href := href, name := name, is_dir := is_dir }
  | _, _ => none

/-- Model of `NextcloudClient.list_directory` response handling (lines 202-266):
404 returns `[]`; `_handle_response(response, success_codes=(207,))` runs;
`ET.fromstring` either raises `ParseError` or yields the response
elements, which are folded into items in document order. -/
def list_directory (c : Client) (remote_path : List Nat) (status : Nat)
    (body : XmlBody) : Except Err (List Entry) :=
  if status = 404 then Except.ok []
  else
    match handle_response status [207] with
    | Except.error e => Except.error e
    | Except.ok _ =>
      match body with
      | XmlBody.malformed => Except.error Err.parseError
      | XmlBody.wellFormed rs =>
        Except.ok (rs.filterMap (processResp (baseHrefCheck c remote_path)))

/-- The spec's "final non-empty segment of the decoded href with trailing
slashes stripped" (applied to the already-stripped string): the last
element of the split that is non-empty. -/
def finalNonEmptySeg (s : List Nat) : List Nat :=
  ((splitPy slash s).filter (fun a => !a.isEmpty)).getLastD []

/-! ## Concrete instances for closed-form checks -/

/-- A concrete client (`base_url` already stripped of trailing slashes). -/
def c0 : Client := { base_url := bytes "http://h", username := bytes "u" }

/-- A concrete queried directory path. -/
def p0 : List Nat := bytes "docs"

/-- A multi-status entry for the queried directory itself. -/
def rSelf : RespElem :=
  { href := some (some (bytes "/remote.php/dav/files/u/docs/")),
    propstat := some { prop := some { resourcetype := some { hasCollection := true } } } }

/-- A multi-status entry for a child file of the queried directory. -/
def rChild : RespElem :=
  { href := some (some (bytes "/remote.php/dav/files/u/docs/a.txt")),
    propstat := some { prop := some { resourcetype := some { hasCollection := false } } } }

/-- The listing item that `rChild` produces. -/
def e0 : Entry :=
  { href := bytes "/remote.php/dav/files/u/docs/a.txt",
    name := bytes "a.txt", is_dir := false }

/-- A multi-status entry whose raw href text is the bare string `/`. -/
def rSlashHref : RespElem :=
  { href := some (some [slash]), propstat := some { prop := none } }

/-! ## Helper lemmas: stripping and splitting -/

theorem lstrip_cons_self (c : Nat) (s : List Nat) :
    lstrip c (c :: s) = lstrip c s := by
  simp [lstrip]

theorem lstrip_append_self (c : Nat) (l : List Nat) :
    lstrip c (l ++ [c]) = if lstrip c l = [] then [] else lstrip c l ++ [c] := by
  induction l with
  | nil => simp [lstrip]
  | cons x xs ih =>
    by_cases hx : x = c
    · subst hx
      simp only [List.cons_append, lstrip_cons_self]
      exact ih
    · simp [lstrip, hx]

theorem rstrip_append_self (c : Nat) (s : List Nat) :
    rstrip c (s ++ [c]) = rstrip c s := by
  simp [rstrip, lstrip_cons_self]

theorem rstrip_cons_self (c : Nat) (s : List Nat) :
    rstrip c (c :: s) = if rstrip c s = [] then [] else c :: rstrip c s := by
  unfold rstrip
  simp only [List.reverse_cons]
  rw [lstrip_append_self]
  by_cases h : lstrip c s.reverse = []
  · simp [h]
  · simp [h, List.reverse_eq_nil_iff]

theorem stripBoth_append_self (c : Nat) (s : List Nat) :
    stripBoth c (s ++ [c]) = stripBoth c s := by
  simp [stripBoth, rstrip_append_self]

theorem stripBoth_cons_self (c : Nat) (s : List Nat) :
    stripBoth c (c :: s) = stripBoth c s := by
  unfold stripBoth
  rw [rstrip_cons_self]
  by_cases h : rstrip c s = []
  · simp [h, lstrip]
  · simp [h, lstrip_cons_self]

theorem stripBoth_ensureLeading (p : List Nat) :
    stripBoth slash (ensureLeading p) = stripBoth slash p := by
  unfold ensureLeading
  by_cases h : p.head? = some slash
  · simp [h]
  · simp [h, stripBoth_cons_self]

theorem build_url_congr (c : Client) (p q : List Nat)
    (h : stripBoth slash p = stripBoth slash q) :
    build_url c p = build_url c q := by
  unfold build_url
  rw [stripBoth_ensureLeading, stripBoth_ensureLeading, h]

theorem splitPy_ne_nil (sep : Nat) (s : List Nat) : splitPy sep s ≠ [] := by
  cases s with
  | nil => simp [splitPy]
  | cons c rest =>
    simp only [splitPy]
    by_cases h : c = sep <;> simp [h]

theorem splitPy_cons (sep c : Nat) (rest : List Nat) :
    splitPy sep (c :: rest) =
      if c = sep then [] :: splitPy sep rest
      else (c :: (splitPy sep rest).headD []) :: (splitPy sep rest).tail := rfl

theorem mem_lstrip {c b : Nat} {s : List Nat} (h : b ∈ lstrip c s) : b ∈ s := by
  induction s with
  | nil => simp [lstrip] at h
  | cons x xs ih =>
    by_cases hx : x = c
    · rw [lstrip, if_pos hx] at h
      exact List.mem_cons_of_mem x (ih h)
    · rwa [lstrip, if_neg hx] at h

theorem mem_rstrip {c b : Nat} {s : List Nat} (h : b ∈ rstrip c s) : b ∈ s := by
  unfold rstrip at h
  rw [List.mem_reverse] at h
  exact List.mem_reverse.mp (mem_lstrip h)

theorem mem_stripBoth {c b : Nat} {s : List Nat} (h : b ∈ stripBoth c s) : b ∈ s :=
  mem_rstrip (mem_lstrip h)

theorem mem_splitPy (sep b : Nat) :
    ∀ (t seg : List Nat), seg ∈ splitPy sep t → b ∈ seg → b ∈ t := by
  intro t
  induction t with
  | nil =>
    intro seg hseg hb
    simp [splitPy] at hseg
    subst hseg
    simp at hb
  | cons c rest ih =>
    intro seg hseg hb
    obtain ⟨g, gs, hr⟩ : ∃ g gs, splitPy sep rest = g :: gs := by
      cases hsp : splitPy sep rest with
      | nil => exact absurd hsp (splitPy_ne_nil sep rest)
      | cons g gs => exact ⟨g, gs, rfl⟩
    simp only [splitPy, hr] at hseg
    by_cases hc : c = sep
    · rw [if_pos hc] at hseg
      rcases List.mem_cons.mp hseg with h1 | h1
      · subst h1; simp at hb
      · refine List.mem_cons_of_mem c (ih seg ?_ hb)
        rw [hr]; exact h1
    · rw [if_neg hc] at hseg
      simp only [List.headD_cons, List.tail_cons] at hseg
      rcases List.mem_cons.mp hseg with h1 | h1
      · subst h1
        rcases List.mem_cons.mp hb with h2 | h2
        · subst h2; exact List.mem_cons_self b rest
        · refine List.mem_cons_of_mem c (ih g ?_ h2)
          rw [hr]; exact List.mem_cons_self g gs
      · refine List.mem_cons_of_mem c (ih seg ?_ hb)
        rw [hr]; exact List.mem_cons_of_mem g h1

theorem getLastD_cons_of_ne_nil {α : Type} (a d : α) (l : List α) (h : l ≠ []) :
    (a :: l).getLastD d = l.getLastD d := by
  cases l with
  | nil => exact absurd rfl h
  | cons x xs =>
    rw [List.getLastD_cons, List.getLastD_eq_getLast?, List.getLastD_eq_getLast?]
    cases hxy : (x :: xs).getLast? with
    | none => rw [List.getLast?_eq_none_iff] at hxy; exact absurd hxy (by simp)
    | some y => rfl

/-! ## Helper lemmas: the items produced by the listing -/

theorem processResp_some {bc : List Nat} {r : RespElem} {e : Entry}
    (h : processResp bc r = some e) :
    rstrip slash e.href ≠ bc ∧ e.name = lastSeg (rstrip slash e.href) := by
  rcases r with ⟨href, ps⟩
  rcases href with _ | href
  · simp [processResp] at h
  rcases href with _ | raw
  · simp [processResp] at h
  rcases ps with _ | ps
  · simp [processResp] at h
  by_cases heq : rstrip slash (unquote raw) = bc
  · simp [processResp, heq] at h
  · simp only [processResp, if_neg heq] at h
    rw [Option.some.injEq] at h
    subst h
    exact ⟨heq, rfl⟩

theorem list_directory_entry_spec {c : Client} {p : List Nat} {status : Nat}
    {body : XmlBody} {items : List Entry} {e : Entry}
    (h : list_directory c p status body = Except.ok items) (he : e ∈ items) :
    rstrip slash e.href ≠ baseHrefCheck c p ∧
    e.name = lastSeg (rstrip slash e.href) := by
  unfold list_directory at h
  by_cases h404 : status = 404
  · rw [if_pos h404] at h
    rw [Except.ok.injEq] at h
    subst h
    simp at he
  · rw [if_neg h404] at h
    cases hhr : handle_response status [207] with
    | error err => rw [hhr] at h; exact absurd h (by simp)
    | ok u =>
      rw [hhr] at h
      cases body with
      | malformed => exact absurd h (by simp)
      | wellFormed rs =>
        simp only at h
        rw [Except.ok.injEq] at h
        subst h
        obtain ⟨r, _, hpr⟩ := List.mem_filterMap.mp he
        exact processResp_some hpr

theorem list_directory_congr {c : Client} {p q : List Nat} (status : Nat)
    (body : XmlBody) (h : baseHrefCheck c p = baseHrefCheck c q) :
    list_directory c p status body = list_directory c q status body := by
  unfold list_directory
  rw [h]

theorem baseHrefCheck_cons_slash (c : Client) (p : List Nat) :
    baseHrefCheck c (slash :: p) = baseHrefCheck c p := by
  unfold baseHrefCheck
  rw [stripBoth_cons_self]

theorem baseHrefCheck_append_slash (c : Client) (p : List Nat) :
    baseHrefCheck c (p ++ [slash]) = baseHrefCheck c p := by
  unfold baseHrefCheck
  rw [stripBoth_append_self]

/-! ## Claims about response classification -/

/-- C1: the claim says every upload status outside {200, 201, 204} and every
mkdir status outside {201, 405} raises, including 3xx codes. The code's
`raise_for_status` only raises for 4xx/5xx, so at status 301 `upload_file`
returns `True` and `create_directory` falls through, returning `None` —
contradicting the claim and the code's own docstring and the comment
"Will raise error if not 201 or 405". This theorem evaluates the model at
the failing input (and records the intended 4xx behavior for contrast). -/
theorem C1_bug_eval :
    upload_file 301 = Except.ok true ∧
    create_directory 301 = Except.ok none ∧
    upload_file 500 = Except.error (Err.httpError 500) ∧
    create_directory 500 = Except.error (Err.httpError 500) :=
  ⟨rfl, rfl, rfl, rfl⟩

/-- C5: the claim says `delete` raises for every status other than 404 and
204. At status 301 (or 200) `raise_for_status` does not raise, the code
prints "Item deleted successfully!" and returns `True` — contradicting the
claim and the comment "Only 204 is true success". This theorem evaluates
the model at the failing input and records the parts of the claim the code
does satisfy (404 → `False`, 204 → `True`, 4xx/5xx → raise). -/
theorem C5_bug_eval :
    delete 404 = Except.ok false ∧
    delete 204 = Except.ok true ∧
    delete 301 = Except.ok true ∧
    delete 500 = Except.error (Err.httpError 500) :=
  ⟨rfl, rfl, rfl, rfl⟩

/-- C7: `create_directory` returns `True` both on 201 and on 405; a 405
response is never an error. -/
theorem C7_mkdir_201_405 :
    create_directory 201 = Except.ok (some true) ∧
    create_directory 405 = Except.ok (some true) :=
  ⟨rfl, rfl⟩

/-- C6: a 404 response to PROPFIND makes `list_directory` return the empty
list, whatever the body holds, and no error is raised. -/
theorem C6_list_404_empty (c : Client) (p : List Nat) (body : XmlBody) :
    list_directory c p 404 body = Except.ok [] :=
  rfl

/-- C9: a 207 response whose body is not well-formed XML makes
`list_directory` raise `ParseError`, which no caller can confuse with the
`Failure` (`httpError`) raised for unexpected statuses: the two are
distinct constructors of `Err`. -/
theorem C9_malformed_xml :
    (∀ (c : Client) (p : List Nat),
      list_directory c p 207 XmlBody.malformed = Except.error Err.parseError) ∧
    ∀ s : Nat, (Err.parseError : Err) ≠ Err.httpError s :=
  ⟨fun _ _ => rfl, fun _ h => nomatch h⟩

/-- C3: no item that `list_directory` returns has a stripped decoded href
equal to the expected self href (`dav_base_path` plus the normalized
queried path), and the listing — in particular that exclusion — is
unaffected by leading or trailing slashes in the request path. -/
theorem C3_self_entry_excluded (c : Client) (p : List Nat) (status : Nat)
    (body : XmlBody) (items : List Entry)
    (h : list_directory c p status body = Except.ok items) :
    (∀ e ∈ items, rstrip slash e.href ≠ baseHrefCheck c p) ∧
    list_directory c (slash :: p) status body = list_directory c p status body ∧
    list_directory c (p ++ [slash]) status body = list_directory c p status body :=
  ⟨fun _ he => (list_directory_entry_spec h he).1,
    list_directory_congr status body (baseHrefCheck_cons_slash c p),
    list_directory_congr status body (baseHrefCheck_append_slash c p)⟩

/-- C3 witness: a concrete 207 multi-status holding the self entry and one
child produces exactly the child item, whose stripped href differs from
the expected self href. -/
theorem C3_witness : rstrip slash e0.href ≠ baseHrefCheck c0 p0 := by
  have h : list_directory c0 p0 207 (XmlBody.wellFormed [rSelf, rChild]) =
      Except.ok [e0] := rfl
  exact (C3_self_entry_excluded c0 p0 207 (XmlBody.wellFormed [rSelf, rChild])
    [e0] h).1 e0 (List.mem_cons_self e0 [])

/-! ## Helper lemmas: name extraction -/

theorem head?_lstrip (c : Nat) (s : List Nat) : (lstrip c s).head? ≠ some c := by
  induction s with
  | nil => simp [lstrip]
  | cons x xs ih =>
    by_cases hx : x = c
    · rw [lstrip, if_pos hx]; exact ih
    · rw [lstrip, if_neg hx]
      simp [hx]

theorem getLast?_rstrip (c : Nat) (s : List Nat) :
    (rstrip c s).getLast? ≠ some c := by
  unfold rstrip
  rw [List.getLast?_reverse]
  exact head?_lstrip c s.reverse

theorem splitPy_getLastD_ne_nil (sep : Nat) :
    ∀ s : List Nat, s ≠ [] → s.getLast? ≠ some sep →
      (splitPy sep s).getLastD [] ≠ [] := by
  intro s
  induction s with
  | nil => intro h _; exact absurd rfl h
  | cons c rest ih =>
    intro _ hlast
    cases rest with
    | nil =>
      have hc : c ≠ sep := fun hcs => hlast (by simp [hcs])
      simp [splitPy, hc]
    | cons y t =>
      have hlast' : (y :: t).getLast? ≠ some sep := by
        rwa [List.getLast?_cons_cons] at hlast
      have ih' := ih (by simp) hlast'
      obtain ⟨g, gs, hr⟩ : ∃ g gs, splitPy sep (y :: t) = g :: gs := by
        cases hsp : splitPy sep (y :: t) with
        | nil => exact absurd hsp (splitPy_ne_nil sep (y :: t))
        | cons g gs => exact ⟨g, gs, rfl⟩
      rw [hr] at ih'
      rw [splitPy_cons sep c (y :: t), hr]
      by_cases hc : c = sep
      · rw [if_pos hc, getLastD_cons_of_ne_nil _ _ _ (by simp)]
        exact ih'
      · rw [if_neg hc]
        simp only [List.headD_cons, List.tail_cons]
        cases gs with
        | nil => simp
        | cons g2 gs2 =>
          rw [getLastD_cons_of_ne_nil _ _ _ (by simp)]
          rw [getLastD_cons_of_ne_nil _ _ _ (by simp)] at ih'
          exact ih'

theorem getLastD_filter_ne_nil :
    ∀ L : List (List Nat), L.getLastD [] ≠ [] →
      (L.filter (fun a => !a.isEmpty)).getLastD [] = L.getLastD [] := by
  intro L
  induction L with
  | nil => intro h; exact absurd rfl h
  | cons a L ih =>
    intro h
    cases L with
    | nil =>
      have ha : a ≠ [] := by simpa using h
      have hka : (!a.isEmpty) = true := by simp [List.isEmpty_iff, ha]
      simp [List.filter, hka]
    | cons b L2 =>
      have h' : (b :: L2).getLastD [] ≠ [] := by
        rwa [getLastD_cons_of_ne_nil _ _ _ (by simp)] at h
      have ih' := ih h'
      rw [getLastD_cons_of_ne_nil _ _ _ (by simp), List.filter_cons]
      by_cases ha : (!a.isEmpty) = true
      · rw [if_pos ha]
        have hne : (b :: L2).filter (fun x => !x.isEmpty) ≠ [] := by
          intro hnil
          rw [hnil] at ih'
          exact h' ih'.symm
        rw [getLastD_cons_of_ne_nil _ _ _ hne]
        exact ih'
      · rw [if_neg ha]
        exact ih'

/-- C8 counterexample: a multi-status entry whose raw href is the bare
string `/` is kept in the result with an empty name — the claim says the
name is never empty. -/
theorem C8_counterexample :
    list_directory c0 p0 207 (XmlBody.wellFormed [rSlashHref]) =
      Except.ok [{ href := [slash], name := [], is_dir := false }] ∧
    ({ href := [slash], name := [], is_dir := false } : Entry).name = [] :=
  ⟨rfl, rfl⟩

/-- C8 amended: for every item `list_directory` returns, when the decoded
href stripped of trailing slashes is non-empty, the name equals its final
non-empty segment and in particular is non-empty; when the decoded href
consists entirely of slashes (stripped form empty, e.g. href `/`), the
name is the empty string. -/
theorem C8_amended (c : Client) (p : List Nat) (status : Nat) (body : XmlBody)
    (items : List Entry) (h : list_directory c p status body = Except.ok items) :
    ∀ e ∈ items,
      (rstrip slash e.href ≠ [] →
        e.name = finalNonEmptySeg (rstrip slash e.href) ∧ e.name ≠ []) ∧
      (rstrip slash e.href = [] → e.name = []) := by
  intro e he
  obtain ⟨-, hname⟩ := list_directory_entry_spec h he
  constructor
  · intro hne
    have h1 := splitPy_getLastD_ne_nil slash (rstrip slash e.href) hne
      (getLast?_rstrip slash e.href)
    have h2 := getLastD_filter_ne_nil (splitPy slash (rstrip slash e.href)) h1
    constructor
    · rw [hname]
      unfold finalNonEmptySeg lastSeg
      exact h2.symm
    · rw [hname]
      exact h1
  · intro hnil
    rw [hname, hnil]
    rfl

/-- C8 witness: at the concrete child item `e0` the hypothesis and the
non-empty-href side condition hold by evaluation, and the theorem yields
that its name is the final non-empty segment `a.txt`. -/
theorem C8_witness :
    e0.name = finalNonEmptySeg (rstrip slash e0.href) ∧ e0.name ≠ [] := by
  have h : list_directory c0 p0 207 (XmlBody.wellFormed [rSelf, rChild]) =
      Except.ok [e0] := rfl
  exact (C8_amended c0 p0 207 (XmlBody.wellFormed [rSelf, rChild]) [e0] h e0
    (List.mem_cons_self e0 [])).1 (by decide)

/-! ## Claims about URL construction -/

/-- C2 counterexample: at a concrete client, `_build_url('/')` is the base
URL plus the DAV root plus a trailing slash — not, as the claim states,
the base URL plus the DAV root with no trailing path component. -/
theorem C2_counterexample :
    build_url c0 (bytes "/") = c0.base_url ++ davBasePath c0 ++ [slash] ∧
    build_url c0 (bytes "/") ≠ c0.base_url ++ davBasePath c0 := by
  constructor
  · rfl
  · decide

/-- C2 amended: `_build_url` applied to the root path `/` yields the base
URL concatenated with the DAV root path and a single trailing slash (the
encoded segment list is empty). -/
theorem C2_amended (c : Client) :
    build_url c (bytes "/") = c.base_url ++ davBasePath c ++ [slash] := by
  have h : joinSep slash
      ((splitPy slash (stripBoth slash (ensureLeading (bytes "/")))).map quote) = [] := rfl
  unfold build_url
  rw [h, List.append_nil]

/-! ## Helper lemmas: percent-encoding round trip -/

theorem isSafeByte_ne_37 {b : Nat} (h : isSafeByte b = true) : b ≠ 37 := by
  intro hb
  subst hb
  exact absurd h (by decide)

theorem hexVal_hexDigit {x : Nat} (hx : x < 16) : hexVal (hexDigit x) = some x := by
  unfold hexDigit
  by_cases h : x < 10
  · rw [if_pos h]
    unfold hexVal
    rw [if_pos (by omega)]
    congr 1
    omega
  · rw [if_neg h]
    unfold hexVal
    rw [if_neg (by omega), if_pos (by omega)]
    congr 1
    omega

theorem unquote_cons_ne {b : Nat} (hb : b ≠ 37) (l : List Nat) :
    unquote (b :: l) = b :: unquote l := by
  match l with
  | [] => simp [unquote, hb]
  | [x] => simp [unquote, hb]
  | x :: y :: t => simp [unquote, hb]

theorem unquote_hex {a b : Nat} (ha : a < 16) (hb : b < 16) (rest : List Nat) :
    unquote (37 :: hexDigit a :: hexDigit b :: rest) =
      (16 * a + b) :: unquote rest := by
  simp [unquote, hexVal_hexDigit ha, hexVal_hexDigit hb]

theorem quote_unquote :
    ∀ s : List Nat, (∀ b ∈ s, b < 256) → unquote (quote s) = s := by
  intro s
  induction s with
  | nil => intro _; rfl
  | cons b rest ih =>
    intro h
    have hb : b < 256 := h b (List.mem_cons_self b rest)
    have hrest := ih (fun x hx => h x (List.mem_cons_of_mem b hx))
    show unquote (quoteByte b ++ quote rest) = b :: rest
    unfold quoteByte
    by_cases hsafe : isSafeByte b = true
    · rw [if_pos hsafe, List.singleton_append,
        unquote_cons_ne (isSafeByte_ne_37 hsafe), hrest]
    · rw [if_neg hsafe]
      have h1 : b / 16 < 16 := by omega
      have h2 : b % 16 < 16 := by omega
      calc unquote ([37, hexDigit (b / 16), hexDigit (b % 16)] ++ quote rest)
          = unquote (37 :: hexDigit (b / 16) :: hexDigit (b % 16) :: quote rest) :=
            rfl
        _ = (16 * (b / 16) + b % 16) :: unquote (quote rest) := unquote_hex h1 h2 _
        _ = b :: rest := by rw [hrest, Nat.div_add_mod]

/-- C4: `_build_url` percent-encodes each segment of the stripped path
independently, joining them with unencoded slash separators, and for every
remote path of UTF-8 bytes percent-decoding an encoded segment yields the
original segment. -/
theorem C4_segment_roundtrip (c : Client) (p : List Nat)
    (hb : ∀ b ∈ p, b < 256) :
    build_url c p = c.base_url ++ davBasePath c ++ [slash] ++
      joinSep slash ((splitPy slash (stripBoth slash p)).map quote) ∧
    ∀ seg ∈ splitPy slash (stripBoth slash p), unquote (quote seg) = seg := by
  constructor
  · unfold build_url
    rw [stripBoth_ensureLeading]
  · intro seg hseg
    refine quote_unquote seg fun b hbseg => hb b ?_
    exact mem_stripBoth (mem_splitPy slash b (stripBoth slash p) seg hseg hbseg)

/-- C4 witness: the segment `my docs` of the concrete path
`/my docs/a.txt` round-trips through the encoding. -/
theorem C4_witness : unquote (quote (bytes "my docs")) = bytes "my docs" :=
  (C4_segment_roundtrip c0 (bytes "/my docs/a.txt") (by decide)).2
    (bytes "my docs") (by decide)

/-- C10: `_build_url` is insensitive to leading and trailing slashes
(they are stripped before the split), so the trailing slash
`create_directory` appends (`mkcolPath`) never changes the URL: MKCOL, PUT
and DELETE on the same logical path target the same URL. -/
theorem C10_url_slash_insensitive (c : Client) (p : List Nat) :
    build_url c (slash :: p) = build_url c p ∧
    build_url c (p ++ [slash]) = build_url c p ∧
    build_url c (mkcolPath p) = build_url c p := by
  refine ⟨build_url_congr c _ p (stripBoth_cons_self slash p),
    build_url_congr c _ p (stripBoth_append_self slash p), ?_⟩
  unfold mkcolPath
  by_cases h : p ≠ [slash] ∧ p.getLast? ≠ some slash
  · rw [if_pos h]
    exact build_url_congr c _ p (stripBoth_append_self slash p)
  · rw [if_neg h]

end NextcloudAPI
